import Mathlib

/-!
Shallow embedding of the scheduled-message core of discord-role-guardian:
the storage layer (`src/data/storage.js`) and the scheduled-messages handler
(`handlers/scheduledMessages.js`), together with the slash commands that
drive them (`/schedule-message`, `/remove-scheduled`, `/reset`).

Modelling conventions: JS strings are lists of characters, JS `Map`s are
association lists with `Map.set` replace-in-place semantics, timestamps are
integer milliseconds since the Unix epoch, and `setTimeout` handles are
numbered by an allocation counter.  A handle sits in `pendingTimeouts` from
`setTimeout` until it either fires or is passed to `clearTimeout`; the
handler's `activeTimers` map is modelled separately, exactly as in the
source, so stale map entries for already-fired handles are represented
faithfully.
-/

namespace RoleGuardian

/-- JS strings, modelled as lists of characters. -/
abbrev JsString := List Char

/-- JS `Map.get`. -/
def mapGet {α β : Type} [DecidableEq α] (k : α) : List (α × β) → Option β
  | [] => none
  | (k', v) :: rest => if k' = k then some v else mapGet k rest

/-- JS `Map.set`: replace the binding in place if the key exists, append otherwise. -/
def mapSet {α β : Type} [DecidableEq α] (k : α) (v : β) : List (α × β) → List (α × β)
  | [] => [(k, v)]
  | (k', v') :: rest => if k' = k then (k, v) :: rest else (k', v') :: mapSet k v rest

/-- JS `Map.delete` (dropping the Boolean result where the source ignores it). -/
def mapDelete {α β : Type} [DecidableEq α] (k : α) (l : List (α × β)) : List (α × β) :=
  l.filter (fun p => !decide (p.1 = k))

/-- JS `String.prototype.startsWith`, on character lists. -/
def startsWithKey : JsString → JsString → Bool
  | _, [] => true
  | [], _ :: _ => false
  | c :: s, d :: pre => c == d && startsWithKey s pre

def msPerMinute : Int := 60000

def msPerHour : Int := 3600000

def msPerDay : Int := 86400000

/-- JS `%` (truncated remainder) on integers, for a positive modulus. -/
def jsRem (a b : Int) : Int := if 0 ≤ a then a % b else -((-a) % b)

/-- Millisecond timestamp of the start of the UTC day containing `t`
    (ECMA-262 `Day(t) * msPerDay`). -/
def dayStart (t : Int) : Int := t - t % msPerDay

/-- ECMA-262 `WeekDay(t)`: `Date.prototype.getUTCDay` (0 = Sunday). -/
def weekDay (t : Int) : Int := (t / msPerDay + 4) % 7

/-- Full minutes elapsed within the UTC day of `t`:
    `getUTCHours() * 60 + getUTCMinutes()`. -/
def minutesWithinDay (t : Int) : Int := t % msPerDay / msPerMinute

/-- Day number (days since the epoch) of the civil date `(y, m, d)`, month
    1–12.  The formula is linear in `d`, so out-of-range days roll over into
    adjacent months exactly as `Date.prototype.setUTCDate` normalizes them. -/
def daysFromCivil (y m d : Int) : Int :=
  let y' := if m ≤ 2 then y - 1 else y
  let era := y' / 400
  let yoe := y' - era * 400
  let mp := (m + 9) % 12
  let doy := (153 * mp + 2) / 5 + d - 1
  let doe := yoe * 365 + yoe / 4 - yoe / 100 + doy
  era * 146097 + doe - 719468

/-- Civil date `(year, month 1–12, day)` of a day number. -/
def civilFromDays (z : Int) : Int × Int × Int :=
  let z' := z + 719468
  let era := z' / 146097
  let doe := z' - era * 146097
  let yoe :=
    (doe - doe / 1460 + doe / 36524 - doe / 146096) / 365
  let y := yoe + era * 400
  let doy := doe - (365 * yoe + yoe / 4 - yoe / 100)
  let mp := (5 * doy + 2) / 153
  let d := doy - (153 * mp + 2) / 5 + 1
  let m := if mp < 10 then mp + 3 else mp - 9
  (if m ≤ 2 then y + 1 else y, m, d)

/-- The `schedule.type` field: `'once' | 'daily' | 'weekly' | 'monthly'`. -/
inductive ScheduleType
  | once
  | daily
  | weekly
  | monthly
deriving DecidableEq, Repr

/-- A `schedule` object as stored by `/schedule-message`.  `hours`/`minutes`
    are the two components of the validated `HH:MM` string `schedule.time`;
    `timezoneOffset` comes from the command's integer option; `dayOfWeek` and
    `dayOfMonth` are only consulted by the weekly and monthly branches. -/
structure Schedule where
  type : ScheduleType
  hours : Int
  minutes : Int
  timezoneOffset : Int
  dayOfWeek : Int := 0
  dayOfMonth : Int := 1
deriving DecidableEq, Repr

/-- The handler's `calculateNextExecution(schedule)`, with the implicit
    `new Date()` made an explicit `now` argument.  Returns the millisecond
    delay until the next execution, or `none` where the source returns
    `null` (a `once` time already in the past). -/
def calculateNextExecution (schedule : Schedule) (now : Int) : Option Int :=
  let utcHours := jsRem (schedule.hours - schedule.timezoneOffset + 24) 24
  let timeOfDay := utcHours * msPerHour + schedule.minutes * msPerMinute
  match schedule.type with
  | .once =>
      let nextExecution := dayStart now + timeOfDay
      if nextExecution ≤ now then none else some (nextExecution - now)
  | .daily =>
      let candidate := dayStart now + timeOfDay
      let nextExecution := if candidate ≤ now then candidate + msPerDay else candidate
      some (nextExecution - now)
  | .weekly =>
      let currentDay := weekDay now
      let delta := schedule.dayOfWeek - currentDay
      let daysUntilNext :=
        if delta < 0 ∨ (delta = 0 ∧ utcHours * 60 + schedule.minutes ≤ minutesWithinDay now)
        then delta + 7 else delta
      some (dayStart now + daysUntilNext * msPerDay + timeOfDay - now)
  | .monthly =>
      let t1 := dayStart now + timeOfDay
      let withinDay := t1 - msPerDay * (t1 / msPerDay)
      match civilFromDays (t1 / msPerDay) with
      | (y, mo, _) =>
        let dn2 := daysFromCivil y mo 1 + (schedule.dayOfMonth - 1)
        let t2 := dn2 * msPerDay + withinDay
        if t2 ≤ now then
          match civilFromDays dn2 with
          | (y2, mo2, d2) =>
            let y3 := y2 + mo2 / 12
            let mo3 := mo2 % 12 + 1
            let dn3 := daysFromCivil y3 mo3 1 + (d2 - 1)
            some (dn3 * msPerDay + withinDay - now)
        else some (t2 - now)

/-- A `messageConfig` object: one scheduled message (§3 `ScheduleEntry`). -/
structure SchedMsg where
  id : JsString
  name : JsString
  guildId : JsString
  channelId : JsString
  content : JsString
  schedule : Schedule
  recurring : Bool
  enabled : Bool
deriving DecidableEq, Repr

/-- The storage module's scheduled-message state: the in-memory
    `scheduledMessages` map plus the last snapshot of it that was
    successfully written to `config.json` (`none` if no write succeeded). -/
structure SchedStore where
  scheduledMessages : List (JsString × List SchedMsg)
  file : Option (List (JsString × List SchedMsg))
deriving DecidableEq, Repr

/-- The storage module's `saveToFile()`.  Every failure path is caught
    inside the function: it logs and returns normally, reporting nothing to
    its caller.  `fsOk` says whether any of the three write strategies
    succeeds; on failure the on-disk snapshot is simply left stale. -/
def saveToFile (fsOk : Bool) (st : SchedStore) : SchedStore :=
  if fsOk then { st with file := some st.scheduledMessages } else st

/-- Replace the first element with the given id, else push at the end
    (the `findIndex`/`push` logic of `saveScheduledMessage`). -/
def setById : List SchedMsg → SchedMsg → List SchedMsg
  | [], msg => [msg]
  | m2 :: rest, msg => if m2.id = msg.id then msg :: rest else m2 :: setById rest msg

/-- The storage module's `saveScheduledMessage(guildId, message)`.  It
    returns nothing: callers cannot observe whether the persistence write
    succeeded. -/
def saveScheduledMessage (fsOk : Bool) (st : SchedStore) (guildId : JsString)
    (message : SchedMsg) : SchedStore :=
  let current := (mapGet guildId st.scheduledMessages).getD []
  saveToFile fsOk
    { st with scheduledMessages := mapSet guildId (setById current message) st.scheduledMessages }

/-- The storage module's `getGuildScheduledMessages(guildId)`. -/
def getGuildScheduledMessages (st : SchedStore) (guildId : JsString) : List SchedMsg :=
  (mapGet guildId st.scheduledMessages).getD []

/-- The storage module's `removeScheduledMessage(guildId, messageId)`:
    filters the guild's list; only when something was actually dropped does
    it write the map back and call `saveToFile`, returning `true`. -/
def removeScheduledMessage (fsOk : Bool) (st : SchedStore) (guildId messageId : JsString) :
    Bool × SchedStore :=
  let current := (mapGet guildId st.scheduledMessages).getD []
  let filtered := current.filter (fun m2 => !decide (m2.id = messageId))
  if filtered.length < current.length then
    (true, saveToFile fsOk { st with scheduledMessages := mapSet guildId filtered st.scheduledMessages })
  else
    (false, st)

/-- Whole-process scheduler state: the store plus the handler's module-level
    `activeTimers` map, the runtime's set of live timeouts (handle paired
    with the captured `messageConfig` closure argument), the handle
    allocator, and a log of Dispatcher invocations
    `(message id, delivery succeeded?)`. -/
structure Sys where
  store : SchedStore
  activeTimers : List (JsString × Nat)
  pendingTimeouts : List (Nat × SchedMsg)
  nextHandle : Nat
  dispatches : List (JsString × Bool)
deriving DecidableEq, Repr

/-- JS `clearTimeout(handle)`: the timeout, if still live, never fires.
    Spending a handle when it fires is the same state change. -/
def clearTimeout (s : Sys) (h : Nat) : Sys :=
  { s with pendingTimeouts := s.pendingTimeouts.filter (fun p => !decide (p.1 = h)) }

/-- First step of the handler's `scheduleMessage`: look the id up in
    `activeTimers` and `clearTimeout` the recorded handle if there is one.
    The map entry itself is not deleted. -/
def clearExistingTimer (s : Sys) (messageId : JsString) : Sys :=
  match mapGet messageId s.activeTimers with
  | some h => clearTimeout s h
  | none => s

/-- The handler's `scheduleMessage(client, messageConfig)`: clear any timer
    already recorded for this id, compute the delay, bail out on
    `!delay || delay < 0`, otherwise arm a fresh timeout and record its
    handle under the id. -/
def scheduleMessage (s : Sys) (messageConfig : SchedMsg) (now : Int) : Sys :=
  let s := clearExistingTimer s messageConfig.id
  match calculateNextExecution messageConfig.schedule now with
  | none => s
  | some delay =>
      if delay ≤ 0 then s
      else
        { s with
          pendingTimeouts := (s.nextHandle, messageConfig) :: s.pendingTimeouts
          activeTimers := mapSet messageConfig.id s.nextHandle s.activeTimers
          nextHandle := s.nextHandle + 1 }

/-- How one run of `executeScheduledMessage` goes: the channel lookup fails,
    the permission check fails, `channel.send` throws (a `DeliveryError`,
    caught by the surrounding `try`), or the send succeeds. -/
inductive FireOutcome
  | channelMissing
  | noSendPermission
  | sendFailed
  | sendOk
deriving DecidableEq, Repr

/-- The handler's `executeScheduledMessage(client, messageConfig)`, run when
    a timeout fires (its handle is already spent).  Only on a successful
    send does the source reschedule a recurring message or retire a one-time
    one; the early returns and the catch block do neither. -/
def executeScheduledMessage (fsOk : Bool) (s : Sys) (messageConfig : SchedMsg)
    (outcome : FireOutcome) (now : Int) : Sys :=
  match outcome with
  | .channelMissing => s
  | .noSendPermission => s
  | .sendFailed => { s with dispatches := (messageConfig.id, false) :: s.dispatches }
  | .sendOk =>
      let s := { s with dispatches := (messageConfig.id, true) :: s.dispatches }
      if messageConfig.recurring then
        scheduleMessage s messageConfig now
      else
        let s' := { s with store := (removeScheduledMessage fsOk s.store messageConfig.guildId messageConfig.id).2 }
        { s' with activeTimers := mapDelete messageConfig.id s'.activeTimers }

/-- A live timeout expires: the runtime retires the handle and runs the
    callback, which is `executeScheduledMessage` on the captured config. -/
def fireTimeout (fsOk : Bool) (s : Sys) (h : Nat) (outcome : FireOutcome) (now : Int) : Sys :=
  match s.pendingTimeouts.find? (fun p => decide (p.1 = h)) with
  | some p => executeScheduledMessage fsOk (clearTimeout s h) p.2 outcome now
  | none => s

/-- The handler's exported `cancelScheduledMessage(messageId)`. -/
def cancelScheduledMessage (s : Sys) (messageId : JsString) : Bool × Sys :=
  match mapGet messageId s.activeTimers with
  | some h =>
      let s' := clearTimeout s h
      (true, { s' with activeTimers := mapDelete messageId s'.activeTimers })
  | none => (false, s)

/-- One step of the handler's `guildConfigReset` listener loop: cancel the
    timer recorded for this message, if any. -/
def cancelGuildTimer (s : Sys) (m : SchedMsg) : Sys :=
  match mapGet m.id s.activeTimers with
  | some h =>
      let s' := clearTimeout s h
      { s' with activeTimers := mapDelete m.id s'.activeTimers }
  | none => s

/-- The `guildConfigReset` listener registered in `setupScheduledMessages`:
    it reads the guild's messages from storage (still intact at this point)
    and cancels each one's timer. -/
def onGuildConfigReset (s : Sys) (guildId : JsString) : Sys :=
  List.foldl cancelGuildTimer s (getGuildScheduledMessages s.store guildId)

/-- The scheduled-message portion of `resetGuildConfig(guildId)`: the
    `guildConfigReset` event is emitted (and its listener runs synchronously)
    before the guild's Store entries are deleted and the file rewritten. -/
def resetGuildConfigSched (fsOk : Bool) (s : Sys) (guildId : JsString) : Sys :=
  let s' := onGuildConfigReset s guildId
  { s' with
    store := saveToFile fsOk
      { s'.store with scheduledMessages := mapDelete guildId s'.store.scheduledMessages } }

/-- The `/remove-scheduled` command (`removeScheduledCommand.execute`):
    look the entry up by name; if absent, reply "not found" without touching
    anything; otherwise cancel its timer first and remove it from storage
    second.  The Boolean reports whether an entry was found. -/
def removeScheduledCommand (fsOk : Bool) (s : Sys) (guildId name : JsString) : Sys × Bool :=
  match (getGuildScheduledMessages s.store guildId).find? (fun m => decide (m.name = name)) with
  | none => (s, false)
  | some m =>
      let (_cancelled, s') := cancelScheduledMessage s m.id
      let (_removed, st') := removeScheduledMessage fsOk s'.store guildId m.id
      ({ s' with store := st' }, true)

/-- Is a timer recorded for this id in the handler's `activeTimers` map? -/
def timerRegistered (s : Sys) (messageId : JsString) : Bool :=
  (mapGet messageId s.activeTimers).isSome

/-- Number of live timeouts that would run `executeScheduledMessage` for
    this message id. -/
def activeTimerCount (s : Sys) (messageId : JsString) : Nat :=
  (s.pendingTimeouts.filter (fun p => decide (p.2.id = messageId))).length

/-- Coherence between the two timer views: every live timeout's handle is
    the one currently recorded for its message id.  This holds in every
    state the source reaches, since `scheduleMessage` records each fresh
    handle under its id immediately after `setTimeout`. -/
def timerCoherent (s : Sys) : Bool :=
  s.pendingTimeouts.all (fun p => decide (mapGet p.2.id s.activeTimers = some p.1))

/-- The kinds of slash-command option `/schedule-message` declares. -/
inductive CommandOptionKind
  | stringKind
  | integerKind
  | channelKind
deriving DecidableEq, Repr

/-- One declared slash-command option. -/
structure CommandOption where
  name : JsString
  kind : CommandOptionKind
  required : Bool
deriving DecidableEq, Repr

/-- The `timezone-offset` option of `/schedule-message`, declared in the
    command builder with `addIntegerOption`. -/
def timezoneOffsetOption : CommandOption :=
  { name := "timezone-offset".toList, kind := .integerKind, required := false }

/-- Which numeric values a declared option kind admits from the user: a
    Discord `Integer` option only admits whole numbers, and the string and
    channel kinds take no numeric value at all. -/
def commandOptionAdmits : CommandOptionKind → ℚ → Bool
  | .integerKind, v => v.den == 1
  | .stringKind, _ => false
  | .channelKind, _ => false

/-- The rational 5.5 = 11/2, the spec's example half-hour offset, given in
    normalized form so that it computes. -/
def halfHourOffset : ℚ := Rat.mk' 11 2 (by decide) (by decide)

/-- JS `Math.trunc`-style truncation of an exact rational, toward zero. -/
def jsTrunc (q : ℚ) : Int := if 0 ≤ q then ⌊q⌋ else -⌊-q⌋

/-- JS `%` on exact rationals: `a - b * trunc(a / b)`. -/
def jsRemQ (a b : ℚ) : ℚ := a - b * jsTrunc (a / b)

/-- The handler's timezone conversion over exact rationals, exactly as on
    its line `const utcHours = (hours - timezoneOffsetHours + 24) % 24`. -/
def calcUtcHours (hours timezoneOffsetHours : ℚ) : ℚ :=
  jsRemQ (hours - timezoneOffsetHours + 24) 24

/-- The formula in the spec's words (§4.1), for comparison with
    `calcUtcHours`: `referenceHour = (localHour − tzOffsetHours + 24) mod 24`
    with the mathematical (floor) modulus. -/
def specReferenceHour (localHour tzOffsetHours : ℚ) : ℚ :=
  let x := localHour - tzOffsetHours + 24
  x - 24 * ⌊x / 24⌋

/-- One reaction-role or button-role binding.  `resetGuildConfig` inspects
    only `config[0]?.guildId` of a stored array of these. -/
structure RoleCfg where
  guildId : JsString
  channelId : JsString
  roleId : JsString
deriving DecidableEq, Repr

/-- The storage module's nine persisted maps.  Payloads the reset path
    never inspects (welcome, leave, leveling, user levels, tickets) are an
    opaque payload type `α`. -/
structure Storage (α : Type) where
  reactionRoles : List (JsString × List RoleCfg)
  buttonRoles : List (JsString × List RoleCfg)
  welcomeConfigs : List (JsString × α)
  leaveConfigs : List (JsString × α)
  levelingConfigs : List (JsString × α)
  userLevels : List (JsString × α)
  scheduledMessages : List (JsString × List SchedMsg)
  ticketConfigs : List (JsString × α)
  tickets : List (JsString × α)
deriving DecidableEq, Repr

/-- Does a role-config array belong to the guild?  This is the source's
    guard `config && config.length > 0 && config[0]?.guildId === guildId`. -/
def belongsToGuild (config : List RoleCfg) (guildId : JsString) : Bool :=
  match config with
  | [] => false
  | c :: _ => decide (c.guildId = guildId)

/-- The user-level key `${guildId}-${userId}` used by `addUserXP`. -/
def userLevelKey (guildId userId : JsString) : JsString := guildId ++ '-' :: userId

/-- The storage-map mutations of `resetGuildConfig(guildId)`: delete the
    guild's keyed entries, drop reaction/button-role configs whose first
    element names the guild, and drop user-level records whose key starts
    with `guildId + '-'`.  The event emission and Discord message deletions
    that precede these mutations touch no stored map. -/
def resetGuildConfig {α : Type} (st : Storage α) (guildId : JsString) : Storage α :=
  { st with
    welcomeConfigs := mapDelete guildId st.welcomeConfigs
    leaveConfigs := mapDelete guildId st.leaveConfigs
    levelingConfigs := mapDelete guildId st.levelingConfigs
    scheduledMessages := mapDelete guildId st.scheduledMessages
    ticketConfigs := mapDelete guildId st.ticketConfigs
    tickets := mapDelete guildId st.tickets
    reactionRoles := st.reactionRoles.filter (fun p => !belongsToGuild p.2 guildId)
    buttonRoles := st.buttonRoles.filter (fun p => !belongsToGuild p.2 guildId)
    userLevels := st.userLevels.filter (fun p => !startsWithKey p.1 (guildId ++ ['-'])) }

/-- A recurring daily test message (12:00 UTC) for guild `g`. -/
def dailyMsg : SchedMsg :=
  { id := ['m', '1']
    name := ['d']
    guildId := ['g']
    channelId := ['c']
    content := ['x']
    schedule := { type := .daily, hours := 12, minutes := 0, timezoneOffset := 0 }
    recurring := true
    enabled := true }

/-- A one-time test message (12:00 UTC) for guild `g`. -/
def onceMsg : SchedMsg :=
  { dailyMsg with
    id := ['m', '2']
    schedule := { type := .once, hours := 12, minutes := 0, timezoneOffset := 0 }
    recurring := false }

/-- System state in which `dailyMsg` is stored, persisted, and armed with
    live timeout handle 0. -/
def armedDaily : Sys :=
  { store := { scheduledMessages := [(['g'], [dailyMsg])], file := some [(['g'], [dailyMsg])] }
    activeTimers := [(dailyMsg.id, 0)]
    pendingTimeouts := [(0, dailyMsg)]
    nextHandle := 1
    dispatches := [] }

/-- System state in which `onceMsg` is stored, persisted, and armed with
    live timeout handle 0. -/
def armedOnce : Sys :=
  { store := { scheduledMessages := [(['g'], [onceMsg])], file := some [(['g'], [onceMsg])] }
    activeTimers := [(onceMsg.id, 0)]
    pendingTimeouts := [(0, onceMsg)]
    nextHandle := 1
    dispatches := [] }

/-- A two-tenant storage fixture for the reset-isolation witness. -/
def twoTenantStorage : Storage JsString :=
  { reactionRoles := [(['r', '1'], [{ guildId := ['1'], channelId := ['c'], roleId := ['x'] }]),
                      (['r', '2'], [{ guildId := ['2'], channelId := ['c'], roleId := ['y'] }])]
    buttonRoles := [(['b', '2'], [{ guildId := ['2'], channelId := ['c'], roleId := ['z'] }])]
    welcomeConfigs := [(['1'], ['w']), (['2'], ['v'])]
    leaveConfigs := [(['1'], ['l']), (['2'], ['k'])]
    levelingConfigs := [(['2'], ['e'])]
    userLevels := [(userLevelKey ['1'] ['u'], ['a']), (userLevelKey ['2'] ['u'], ['b'])]
    scheduledMessages := [(['2'], [dailyMsg])]
    ticketConfigs := [(['1'], ['t'])]
    tickets := [(['2'], ['s'])] }

/-! Association-list lemmas for the JS `Map` model. -/

theorem mapGet_mapSet_self {α β : Type} [DecidableEq α] (k : α) (v : β) (l : List (α × β)) :
    mapGet k (mapSet k v l) = some v := by
  induction l with
  | nil => simp [mapGet, mapSet]
  | cons p rest ih =>
      obtain ⟨k', v'⟩ := p
      by_cases h : k' = k
      · simp [mapSet, h, mapGet]
      · simp [mapSet, h, mapGet, ih]

theorem mapGet_mapSet_ne {α β : Type} [DecidableEq α] {k k' : α} (h : k ≠ k') (v : β)
    (l : List (α × β)) : mapGet k (mapSet k' v l) = mapGet k l := by
  induction l with
  | nil => simp [mapGet, mapSet, Ne.symm h]
  | cons p rest ih =>
      obtain ⟨a, b⟩ := p
      by_cases ha : a = k'
      · subst ha
        simp [mapSet, mapGet, Ne.symm h]
      · by_cases hk : a = k
        · simp [mapSet, ha, mapGet, hk, h]
        · simp [mapSet, ha, mapGet, hk, ih]

theorem mapGet_mapDelete_self {α β : Type} [DecidableEq α] (k : α) (l : List (α × β)) :
    mapGet k (mapDelete k l) = none := by
  induction l with
  | nil => simp [mapGet, mapDelete]
  | cons p rest ih =>
      obtain ⟨a, b⟩ := p
      by_cases h : a = k
      · simpa [mapDelete, List.filter_cons, h] using ih
      · simpa [mapDelete, List.filter_cons, h, mapGet] using ih

theorem mapGet_mapDelete_ne {α β : Type} [DecidableEq α] {k k' : α} (h : k ≠ k')
    (l : List (α × β)) : mapGet k (mapDelete k' l) = mapGet k l := by
  induction l with
  | nil => simp [mapGet, mapDelete]
  | cons p rest ih =>
      obtain ⟨a, b⟩ := p
      by_cases ha : a = k'
      · subst ha
        simp [mapDelete, List.filter_cons, mapGet, Ne.symm h]
        simpa [mapDelete] using ih
      · by_cases hk : a = k
        · simp [mapDelete, List.filter_cons, ha, mapGet, hk, h]
        · simp only [mapDelete, List.filter_cons] at ih ⊢
          simp [ha, mapGet, hk, ih]

theorem mapGet_mapDelete_none {α β : Type} [DecidableEq α] {k k' : α} {l : List (α × β)}
    (h : mapGet k l = none) : mapGet k (mapDelete k' l) = none := by
  by_cases hk : k = k'
  · subst hk
    exact mapGet_mapDelete_self k l
  · rw [mapGet_mapDelete_ne hk]
    exact h

/-! Generic list-filter lemmas. -/

theorem filter_length_eq_all {γ : Type} {p : γ → Bool} :
    ∀ l : List γ, (l.filter p).length = l.length → ∀ x ∈ l, p x = true := by
  intro l
  induction l with
  | nil => simp
  | cons a rest ih =>
      intro hlen x hx
      by_cases hpa : p a = true
      · rw [List.filter_cons_of_pos hpa] at hlen
        simp only [List.length_cons, Nat.add_right_cancel_iff] at hlen
        rcases List.mem_cons.mp hx with rfl | hx'
        · exact hpa
        · exact ih hlen x hx'
      · exfalso
        rw [List.filter_cons_of_neg (by simpa using hpa)] at hlen
        have h1 := List.length_filter_le p rest
        simp only [List.length_cons] at hlen
        omega

theorem filter_filter_not {γ : Type} {p q : γ → Bool} (l : List γ)
    (h : ∀ x ∈ l, q x = true → p x = false) :
    (l.filter (fun x => !p x)).filter q = l.filter q := by
  induction l with
  | nil => rfl
  | cons a rest ih =>
      have ih' := ih (fun x hx => h x (List.mem_cons_of_mem a hx))
      by_cases hpa : p a = true
      · have hqa : q a = false := by
          cases hq : q a
          · rfl
          · exact absurd (h a (List.mem_cons_self a rest) hq) (by simp [hpa])
        simp [List.filter_cons, hpa, hqa, ih']
      · simp only [Bool.not_eq_true] at hpa
        by_cases hqa : q a = true
        · simp [List.filter_cons, hpa, hqa, ih']
        · simp only [Bool.not_eq_true] at hqa
          simp [List.filter_cons, hpa, hqa, ih']

/-! How the storage layer treats the file system. -/

theorem saveToFile_scheduledMessages (fsOk : Bool) (st : SchedStore) :
    (saveToFile fsOk st).scheduledMessages = st.scheduledMessages := by
  unfold saveToFile
  split <;> rfl

/-- C7: for every `daily` schedule with a valid local time and a timezone
    offset of at most 24 hours, and every nonnegative epoch instant `now`,
    the delay computed by `calculateNextExecution` is strictly positive and
    at most 24 hours. -/
theorem daily_delay_positive_and_bounded (schedule : Schedule) (now : Int)
    (htype : schedule.type = .daily)
    (hh0 : 0 ≤ schedule.hours) (hh : schedule.hours < 24)
    (hm0 : 0 ≤ schedule.minutes) (hm : schedule.minutes < 60)
    (htz : schedule.timezoneOffset ≤ 24) :
    0 < (calculateNextExecution schedule now).getD 0 ∧
      (calculateNextExecution schedule now).getD 0 ≤ msPerDay := by
  obtain ⟨ty, hrs, mins, tz, dw, dm⟩ := schedule
  simp only at htype hh0 hh hm0 hm htz
  subst htype
  have ha : 0 ≤ hrs - tz + 24 := by omega
  simp only [calculateNextExecution, jsRem, dayStart, if_pos ha, Option.getD,
    msPerDay, msPerHour, msPerMinute]
  have hu0 : 0 ≤ (hrs - tz + 24) % 24 := Int.emod_nonneg _ (by norm_num)
  have hu1 : (hrs - tz + 24) % 24 < 24 := Int.emod_lt_of_pos _ (by norm_num)
  have hr0 : 0 ≤ now % 86400000 := Int.emod_nonneg _ (by norm_num)
  have hr1 : now % 86400000 < 86400000 := Int.emod_lt_of_pos _ (by norm_num)
  split_ifs <;> constructor <;> omega

/-- Witness for C7 at the concrete daily schedule of `dailyMsg`. -/
theorem daily_delay_positive_and_bounded_witness :
    (dailyMsg.schedule.type = .daily ∧ 0 ≤ dailyMsg.schedule.hours ∧
      dailyMsg.schedule.hours < 24 ∧ 0 ≤ dailyMsg.schedule.minutes ∧
      dailyMsg.schedule.minutes < 60 ∧ dailyMsg.schedule.timezoneOffset ≤ 24) ∧
    (0 < (calculateNextExecution dailyMsg.schedule 1234567).getD 0 ∧
      (calculateNextExecution dailyMsg.schedule 1234567).getD 0 ≤ msPerDay) :=
  ⟨by decide,
   daily_delay_positive_and_bounded dailyMsg.schedule 1234567 (by decide) (by decide)
     (by decide) (by decide) (by decide) (by decide)⟩

/-- C9: removing an id that is not among the tenant's stored entries is not
    an error: `removeScheduledMessage` reports `false` and returns the store
    untouched — in-memory map, guild list and persisted file all unchanged,
    with `saveToFile` never invoked. -/
theorem remove_nonexistent_id_noop (fsOk : Bool) (st : SchedStore)
    (guildId messageId : JsString)
    (habsent : (getGuildScheduledMessages st guildId).all
      (fun m => !decide (m.id = messageId)) = true) :
    removeScheduledMessage fsOk st guildId messageId = (false, st) := by
  simp only [getGuildScheduledMessages] at habsent
  have hfilt :
      ((mapGet guildId st.scheduledMessages).getD []).filter
          (fun m2 => !decide (m2.id = messageId))
        = (mapGet guildId st.scheduledMessages).getD [] :=
    List.filter_eq_self.mpr (List.all_eq_true.mp habsent)
  simp only [removeScheduledMessage]
  rw [hfilt]
  simp

/-- Witness for C9: removing an absent id from the concrete armed store. -/
theorem remove_nonexistent_id_noop_witness :
    ((getGuildScheduledMessages armedDaily.store ['g']).all
        (fun m => !decide (m.id = ['z'])) = true) ∧
    removeScheduledMessage true armedDaily.store ['g'] ['z'] = (false, armedDaily.store) :=
  ⟨by decide, remove_nonexistent_id_noop true armedDaily.store ['g'] ['z'] (by decide)⟩

/-- C5 counterexample: with every write strategy failing, removing the
    stored entry still reports success (`true`) and mutates the in-memory
    map, while the persisted file keeps the removed entry — the persistence
    failure is not surfaced, and the operation is reported complete with
    memory and disk divergent. -/
theorem store_write_failure_not_surfaced :
    (removeScheduledMessage false armedDaily.store ['g'] dailyMsg.id).1 = true ∧
    (removeScheduledMessage false armedDaily.store ['g'] dailyMsg.id).2.scheduledMessages
      = [(['g'], [])] ∧
    (removeScheduledMessage false armedDaily.store ['g'] dailyMsg.id).2.file
      = some [(['g'], [dailyMsg])] := by
  decide

/-- C5 amended: persistence failures during create/remove are caught and
    logged inside `saveToFile` and never surfaced: the caller-visible result
    and the in-memory store state are identical whether or not the write
    succeeds (only the on-disk snapshot differs). -/
theorem storage_ignores_write_outcome (fsOk : Bool) (st : SchedStore)
    (guildId messageId : JsString) (message : SchedMsg) :
    (removeScheduledMessage fsOk st guildId messageId).1
        = (removeScheduledMessage true st guildId messageId).1 ∧
    (removeScheduledMessage fsOk st guildId messageId).2.scheduledMessages
        = (removeScheduledMessage true st guildId messageId).2.scheduledMessages ∧
    (saveScheduledMessage fsOk st guildId message).scheduledMessages
        = (saveScheduledMessage true st guildId message).scheduledMessages := by
  unfold removeScheduledMessage saveScheduledMessage
  dsimp only
  refine ⟨?_, ?_, ?_⟩
  · split <;> rfl
  · split <;> simp [saveToFile_scheduledMessages]
  · simp [saveToFile_scheduledMessages]

/-- C6 counterexample: the `timezone-offset` option of `/schedule-message`
    is declared as an Integer option, so the half-hour offset +5.5 is not
    accepted by the create operation. -/
theorem half_hour_offset_rejected :
    commandOptionAdmits timezoneOffsetOption.kind halfHourOffset = false := by
  decide

/-- C6 amended: offsets enter creation through an Integer option, so only
    whole numbers are accepted; the conversion line itself handles any
    exact-rational offset `tz ≤ 24` (with `0 ≤ localHour`) in agreement with
    the spec formula `(localHour − tzOffsetHours + 24) mod 24`, and the
    minute component is carried into the computed fire instant unchanged. -/
theorem utc_hours_formula (hours tz : ℚ) (schedule : Schedule) (now : Int)
    (hh0 : 0 ≤ hours) (htz : tz ≤ 24)
    (hty : schedule.type = .daily)
    (hsh0 : 0 ≤ schedule.hours) (hstz : schedule.timezoneOffset ≤ 24)
    (hm0 : 0 ≤ schedule.minutes) (hm : schedule.minutes < 60) :
    calcUtcHours hours tz = specReferenceHour hours tz ∧
    ((calculateNextExecution schedule now).getD 0 + now) % msPerHour
      = schedule.minutes * msPerMinute := by
  constructor
  · have hx : (0 : ℚ) ≤ hours - tz + 24 := by linarith
    have hdiv : (0 : ℚ) ≤ (hours - tz + 24) / 24 := by positivity
    unfold calcUtcHours jsRemQ jsTrunc specReferenceHour
    rw [if_pos hdiv]
  · obtain ⟨ty, hrs, mins, tzz, dw, dm⟩ := schedule
    simp only at hty hsh0 hstz hm0 hm
    subst hty
    have ha : 0 ≤ hrs - tzz + 24 := by omega
    simp only [calculateNextExecution, jsRem, dayStart, if_pos ha, Option.getD,
      msPerDay, msPerHour, msPerMinute]
    generalize hu : (hrs - tzz + 24) % 24 = u
    have hu0 : 0 ≤ u := hu ▸ Int.emod_nonneg _ (by norm_num)
    have hu1 : u < 24 := hu ▸ Int.emod_lt_of_pos _ (by norm_num)
    generalize hgen : now % 86400000 = r
    have hr0 : 0 ≤ r := hgen ▸ Int.emod_nonneg _ (by norm_num)
    have hr1 : r < 86400000 := hgen ▸ Int.emod_lt_of_pos _ (by norm_num)
    split_ifs <;> omega

/-- Witness for C6's amended statement at `+5.5` hours and `dailyMsg`. -/
theorem utc_hours_formula_witness :
    ((0 : ℚ) ≤ 14 ∧ halfHourOffset ≤ 24 ∧ dailyMsg.schedule.type = .daily ∧
      0 ≤ dailyMsg.schedule.hours ∧ dailyMsg.schedule.timezoneOffset ≤ 24 ∧
      0 ≤ dailyMsg.schedule.minutes ∧ dailyMsg.schedule.minutes < 60) ∧
    (calcUtcHours 14 halfHourOffset = specReferenceHour 14 halfHourOffset ∧
      ((calculateNextExecution dailyMsg.schedule 0).getD 0 + 0) % msPerHour
        = dailyMsg.schedule.minutes * msPerMinute) :=
  ⟨⟨by norm_num, by decide, by decide, by decide, by decide, by decide, by decide⟩,
   utc_hours_formula 14 halfHourOffset dailyMsg.schedule 0 (by norm_num)
     (by decide) (by decide) (by decide) (by decide) (by decide) (by decide)⟩

theorem removeScheduledMessage_absent (fsOk : Bool) (st : SchedStore)
    (guildId messageId : JsString) :
    (getGuildScheduledMessages (removeScheduledMessage fsOk st guildId messageId).2
        guildId).filter (fun m2 => decide (m2.id = messageId)) = [] := by
  unfold removeScheduledMessage getGuildScheduledMessages
  dsimp only
  split
  case isTrue h =>
      rw [saveToFile_scheduledMessages, mapGet_mapSet_self]
      dsimp only [Option.getD]
      rw [List.filter_eq_nil_iff]
      intro a ha
      have := (List.mem_filter.mp ha).2
      simp at this
      simp [this]
  case isFalse h =>
      have hlen := List.length_filter_le (fun m2 => !decide (m2.id = messageId))
        ((mapGet guildId st.scheduledMessages).getD [])
      have heq : (((mapGet guildId st.scheduledMessages).getD []).filter
          (fun m2 => !decide (m2.id = messageId))).length
          = ((mapGet guildId st.scheduledMessages).getD []).length := by omega
      have hall := filter_length_eq_all _ heq
      rw [List.filter_eq_nil_iff]
      intro a ha
      have := hall a ha
      simp at this
      simp [this]

/-- C4 counterexample: a `once` entry whose Dispatcher call fails is not
    removed: after its timeout fires with a failing send, the entry is
    still in the Store (and its stale handle is still in the Timer
    Registry), refuting removal "after its Dispatcher call completes or
    fails" — removal happens only on success. -/
theorem once_fire_failure_not_removed :
    getGuildScheduledMessages (fireTimeout true armedOnce 0 .sendFailed 0).store ['g']
        = [onceMsg] ∧
    timerRegistered (fireTimeout true armedOnce 0 .sendFailed 0) onceMsg.id = true := by
  decide

/-- C4 amended: a `once` entry is removed from the Store and the Timer
    Registry immediately after its Dispatcher call completes successfully,
    and is then absent from the tenant's listing; a failed call leaves it
    stored, but it is not re-armed (no new timeout is created on any
    failure path). -/
theorem once_fire_success_retires (fsOk : Bool) (s : Sys) (messageConfig : SchedMsg)
    (now : Int) (hrec : messageConfig.recurring = false) :
    ((getGuildScheduledMessages
        (executeScheduledMessage fsOk s messageConfig .sendOk now).store
        messageConfig.guildId).filter (fun m2 => decide (m2.id = messageConfig.id)) = []) ∧
    mapGet messageConfig.id
        (executeScheduledMessage fsOk s messageConfig .sendOk now).activeTimers = none ∧
    (executeScheduledMessage fsOk s messageConfig .sendFailed now).pendingTimeouts
        = s.pendingTimeouts := by
  unfold executeScheduledMessage
  rw [hrec]
  dsimp only
  refine ⟨?_, ?_, rfl⟩
  · exact removeScheduledMessage_absent fsOk s.store messageConfig.guildId messageConfig.id
  · exact mapGet_mapDelete_self _ _

/-- Witness for C4's amended statement: `onceMsg` in the armed state. -/
theorem once_fire_success_retires_witness :
    onceMsg.recurring = false ∧
    (((getGuildScheduledMessages
          (executeScheduledMessage true armedOnce onceMsg .sendOk 0).store
          onceMsg.guildId).filter (fun m2 => decide (m2.id = onceMsg.id)) = []) ∧
      mapGet onceMsg.id
          (executeScheduledMessage true armedOnce onceMsg .sendOk 0).activeTimers = none ∧
      (executeScheduledMessage true armedOnce onceMsg .sendFailed 0).pendingTimeouts
          = armedOnce.pendingTimeouts) :=
  ⟨by decide, once_fire_success_retires true armedOnce onceMsg 0 (by decide)⟩

/-- C1: the cancellation race, evaluated.  `dailyMsg`'s timeout has fired
    (handle 0 spent) and its Dispatcher call is in flight when the
    tenant-wide reset completes.  The reset leaves the Store empty with no
    timer registered, yet the completing fire re-arms the cancelled entry —
    `executeScheduledMessage` never consults the Store before rescheduling
    — and the fresh timer invokes the Dispatcher a second time. -/
theorem cancelled_entry_rearmed_after_reset :
    getGuildScheduledMessages
        (executeScheduledMessage true
          (resetGuildConfigSched true (clearTimeout armedDaily 0) ['g'])
          dailyMsg .sendOk 0).store ['g'] = [] ∧
    activeTimerCount
        (executeScheduledMessage true
          (resetGuildConfigSched true (clearTimeout armedDaily 0) ['g'])
          dailyMsg .sendOk 0) dailyMsg.id = 1 ∧
    (fireTimeout true
        (executeScheduledMessage true
          (resetGuildConfigSched true (clearTimeout armedDaily 0) ['g'])
          dailyMsg .sendOk 0) 1 .sendOk 43200000).dispatches.length = 2 := by
  decide

/-- C2: a failing fire, evaluated.  The armed recurring `dailyMsg` fires
    and its `channel.send` throws: the error is swallowed (the Dispatcher
    attempt is recorded and the engine continues), but because the
    rescheduling call sits inside the `try` after the send, it is skipped —
    no live timer remains for the entry even though it is still stored, so
    it cannot fire again before a restart. -/
theorem delivery_failure_skips_reschedule :
    (fireTimeout true armedDaily 0 .sendFailed 0).dispatches = [(dailyMsg.id, false)] ∧
    activeTimerCount (fireTimeout true armedDaily 0 .sendFailed 0) dailyMsg.id = 0 ∧
    getGuildScheduledMessages (fireTimeout true armedDaily 0 .sendFailed 0).store ['g']
      = [dailyMsg] := by
  decide

/-! Coherence of the two timer views, and how cancellation shrinks them. -/

theorem timerCoherent_iff {s : Sys} :
    timerCoherent s = true ↔
      ∀ p ∈ s.pendingTimeouts, mapGet p.2.id s.activeTimers = some p.1 := by
  unfold timerCoherent
  rw [List.all_eq_true]
  constructor
  · intro h p hp
    exact of_decide_eq_true (h p hp)
  · intro h p hp
    exact decide_eq_true (h p hp)

theorem cancelGuildTimer_store (s : Sys) (m : SchedMsg) :
    (cancelGuildTimer s m).store = s.store := by
  unfold cancelGuildTimer clearTimeout
  split <;> rfl

theorem cancelGuildTimer_coherent {s : Sys} {m : SchedMsg} (h : timerCoherent s = true) :
    timerCoherent (cancelGuildTimer s m) = true := by
  rw [timerCoherent_iff] at h ⊢
  unfold cancelGuildTimer clearTimeout
  split
  case h_1 hdl heq =>
      dsimp only
      intro p hp
      obtain ⟨hpmem, hne⟩ := List.mem_filter.mp hp
      simp only [Bool.not_eq_eq_eq_not, Bool.not_true, decide_eq_false_iff_not] at hne
      have hco := h p hpmem
      by_cases hid : p.2.id = m.id
      · rw [hid, heq] at hco
        exact absurd (Option.some.inj hco).symm hne
      · rw [mapGet_mapDelete_ne hid]
        exact hco
  case h_2 heq => exact h

theorem cancelGuildTimer_clears {s : Sys} {m : SchedMsg} (h : timerCoherent s = true) :
    mapGet m.id (cancelGuildTimer s m).activeTimers = none ∧
    ∀ p ∈ (cancelGuildTimer s m).pendingTimeouts, p.2.id ≠ m.id := by
  rw [timerCoherent_iff] at h
  unfold cancelGuildTimer clearTimeout
  split
  case h_1 hdl heq =>
      dsimp only
      refine ⟨mapGet_mapDelete_self _ _, ?_⟩
      intro p hp hid
      obtain ⟨hpmem, hne⟩ := List.mem_filter.mp hp
      simp only [Bool.not_eq_eq_eq_not, Bool.not_true, decide_eq_false_iff_not] at hne
      have hco := h p hpmem
      rw [hid, heq] at hco
      exact hne (Option.some.inj hco).symm
  case h_2 heq =>
      refine ⟨heq, ?_⟩
      intro p hp hid
      have hco := h p hp
      rw [hid, heq] at hco
      cases hco

theorem cancelGuildTimer_preserves {s : Sys} {m : SchedMsg} {k : JsString}
    (h1 : mapGet k s.activeTimers = none)
    (h2 : ∀ p ∈ s.pendingTimeouts, p.2.id ≠ k) :
    mapGet k (cancelGuildTimer s m).activeTimers = none ∧
    ∀ p ∈ (cancelGuildTimer s m).pendingTimeouts, p.2.id ≠ k := by
  unfold cancelGuildTimer clearTimeout
  split
  case h_1 hdl heq =>
      dsimp only
      refine ⟨mapGet_mapDelete_none h1, ?_⟩
      intro p hp
      exact h2 p (List.mem_filter.mp hp).1
  case h_2 heq => exact ⟨h1, h2⟩

theorem foldl_cancel_coherent (L : List SchedMsg) :
    ∀ s : Sys, timerCoherent s = true →
      timerCoherent (List.foldl cancelGuildTimer s L) = true := by
  induction L with
  | nil => intro s h; exact h
  | cons a L ih =>
      intro s h
      rw [List.foldl_cons]
      exact ih _ (cancelGuildTimer_coherent h)

theorem foldl_cancel_store (L : List SchedMsg) :
    ∀ s : Sys, (List.foldl cancelGuildTimer s L).store = s.store := by
  induction L with
  | nil => intro s; rfl
  | cons a L ih =>
      intro s
      rw [List.foldl_cons, ih, cancelGuildTimer_store]

theorem foldl_cancel_preserves (L : List SchedMsg) :
    ∀ (s : Sys) (k : JsString), mapGet k s.activeTimers = none →
      (∀ p ∈ s.pendingTimeouts, p.2.id ≠ k) →
      mapGet k (List.foldl cancelGuildTimer s L).activeTimers = none ∧
      ∀ p ∈ (List.foldl cancelGuildTimer s L).pendingTimeouts, p.2.id ≠ k := by
  induction L with
  | nil => intro s k h1 h2; exact ⟨h1, h2⟩
  | cons a L ih =>
      intro s k h1 h2
      rw [List.foldl_cons]
      obtain ⟨h1', h2'⟩ := cancelGuildTimer_preserves h1 h2
      exact ih _ k h1' h2'

theorem foldl_cancel_clears (L : List SchedMsg) :
    ∀ s : Sys, timerCoherent s = true → ∀ m ∈ L,
      mapGet m.id (List.foldl cancelGuildTimer s L).activeTimers = none ∧
      ∀ p ∈ (List.foldl cancelGuildTimer s L).pendingTimeouts, p.2.id ≠ m.id := by
  induction L with
  | nil =>
      intro s h m hm
      cases hm
  | cons a L ih =>
      intro s h m hm
      rw [List.foldl_cons]
      rcases List.mem_cons.mp hm with rfl | hm'
      · obtain ⟨h1, h2⟩ := cancelGuildTimer_clears h
        exact foldl_cancel_preserves L _ _ h1 h2
      · exact ih _ (cancelGuildTimer_coherent h) m hm'

/-- C3: the tenant reset first cancels — through the `guildConfigReset`
    listener, which runs before any Store deletion — every timer of the
    tenant's stored entries, and only then deletes the Store entries: after
    it returns, the tenant's entry list is empty, no timer is registered
    for any of its pre-reset entries, and no live timeout for any of them
    remains. -/
theorem reset_cancels_then_deletes (fsOk : Bool) (s : Sys) (guildId : JsString)
    (hco : timerCoherent s = true) :
    getGuildScheduledMessages (resetGuildConfigSched fsOk s guildId).store guildId = [] ∧
    (getGuildScheduledMessages s.store guildId).all
        (fun m => !timerRegistered (resetGuildConfigSched fsOk s guildId) m.id) = true ∧
    (resetGuildConfigSched fsOk s guildId).pendingTimeouts.all
        (fun p => (getGuildScheduledMessages s.store guildId).all
          (fun m => !decide (p.2.id = m.id))) = true := by
  refine ⟨?_, ?_, ?_⟩
  · show getGuildScheduledMessages (saveToFile fsOk _) guildId = []
    unfold getGuildScheduledMessages
    rw [saveToFile_scheduledMessages]
    dsimp only
    rw [mapGet_mapDelete_self]
    rfl
  · rw [List.all_eq_true]
    intro m hm
    have h := (foldl_cancel_clears (getGuildScheduledMessages s.store guildId) s hco m hm).1
    have : timerRegistered (resetGuildConfigSched fsOk s guildId) m.id = false := by
      unfold timerRegistered resetGuildConfigSched onGuildConfigReset
      dsimp only
      unfold onGuildConfigReset at h
      rw [h]
      rfl
    rw [this]
    rfl
  · rw [List.all_eq_true]
    intro p hp
    rw [List.all_eq_true]
    intro m hm
    have h := (foldl_cancel_clears (getGuildScheduledMessages s.store guildId) s hco m hm).2
    have hp' : p ∈ (onGuildConfigReset s guildId).pendingTimeouts := hp
    unfold onGuildConfigReset at hp'
    simpa using h p hp'

/-- Witness for C3 at the concrete armed state. -/
theorem reset_cancels_then_deletes_witness :
    timerCoherent armedDaily = true ∧
    (getGuildScheduledMessages (resetGuildConfigSched true armedDaily ['g']).store ['g'] = [] ∧
      (getGuildScheduledMessages armedDaily.store ['g']).all
          (fun m => !timerRegistered (resetGuildConfigSched true armedDaily ['g']) m.id) = true ∧
      (resetGuildConfigSched true armedDaily ['g']).pendingTimeouts.all
          (fun p => (getGuildScheduledMessages armedDaily.store ['g']).all
            (fun m => !decide (p.2.id = m.id))) = true) :=
  ⟨by decide, reset_cancels_then_deletes true armedDaily ['g'] (by decide)⟩

/-! Arming: `scheduleMessage` on a valid delay yields exactly one live
    timer for the id and keeps the views coherent. -/

theorem clearExistingTimer_activeTimers (s : Sys) (messageId : JsString) :
    (clearExistingTimer s messageId).activeTimers = s.activeTimers := by
  unfold clearExistingTimer clearTimeout
  split <;> rfl

theorem clearExistingTimer_pending_sub {s : Sys} {messageId : JsString} :
    ∀ p ∈ (clearExistingTimer s messageId).pendingTimeouts, p ∈ s.pendingTimeouts := by
  unfold clearExistingTimer clearTimeout
  split
  case h_1 hdl heq =>
      intro p hp
      exact (List.mem_filter.mp hp).1
  case h_2 heq => intro p hp; exact hp

theorem clearExistingTimer_no_pending {s : Sys} {messageId : JsString}
    (hco : timerCoherent s = true) :
    ∀ p ∈ (clearExistingTimer s messageId).pendingTimeouts, p.2.id ≠ messageId := by
  rw [timerCoherent_iff] at hco
  unfold clearExistingTimer clearTimeout
  split
  case h_1 hdl heq =>
      intro p hp hid
      obtain ⟨hpmem, hne⟩ := List.mem_filter.mp hp
      simp only [Bool.not_eq_eq_eq_not, Bool.not_true, decide_eq_false_iff_not] at hne
      have hc := hco p hpmem
      rw [hid, heq] at hc
      exact hne (Option.some.inj hc).symm
  case h_2 heq =>
      intro p hp hid
      have hc := hco p hp
      rw [hid, heq] at hc
      cases hc

theorem scheduleMessage_arms_once {s : Sys} {messageConfig : SchedMsg} {now : Int}
    (hco : timerCoherent s = true)
    (hd : 0 < (calculateNextExecution messageConfig.schedule now).getD 0) :
    activeTimerCount (scheduleMessage s messageConfig now) messageConfig.id = 1 ∧
    timerCoherent (scheduleMessage s messageConfig now) = true := by
  cases hcalc : calculateNextExecution messageConfig.schedule now with
  | none =>
      rw [hcalc] at hd
      cases hd
  | some d =>
      rw [hcalc] at hd
      simp only [Option.getD] at hd
      unfold scheduleMessage
      rw [hcalc]
      dsimp only
      rw [if_neg (by omega : ¬ d ≤ 0)]
      constructor
      · unfold activeTimerCount
        dsimp only
        rw [List.filter_cons_of_pos (by simp)]
        rw [List.filter_eq_nil_iff.mpr]
        · rfl
        · intro p hp
          simp only [decide_eq_true_eq]
          exact clearExistingTimer_no_pending hco p hp
      · rw [timerCoherent_iff]
        dsimp only
        intro p hp
        rcases List.mem_cons.mp hp with rfl | hp'
        · dsimp only
          rw [mapGet_mapSet_self]
        · rw [mapGet_mapSet_ne (clearExistingTimer_no_pending hco p hp'),
            clearExistingTimer_activeTimers]
          exact timerCoherent_iff.mp hco p (clearExistingTimer_pending_sub p hp')

/-- C8: arming twice in succession for the same entry leaves exactly one
    live timer for its id — `scheduleMessage` clears the previously
    recorded timeout before arming the fresh one. -/
theorem arm_twice_single_timer (s : Sys) (messageConfig : SchedMsg) (now : Int)
    (hco : timerCoherent s = true)
    (hd : 0 < (calculateNextExecution messageConfig.schedule now).getD 0) :
    activeTimerCount
      (scheduleMessage (scheduleMessage s messageConfig now) messageConfig now)
      messageConfig.id = 1 := by
  obtain ⟨-, hco'⟩ := scheduleMessage_arms_once hco hd
  exact (scheduleMessage_arms_once hco' hd).1

/-- Witness for C8 at the concrete armed state and schedule. -/
theorem arm_twice_single_timer_witness :
    timerCoherent armedDaily = true ∧
    0 < (calculateNextExecution dailyMsg.schedule 0).getD 0 ∧
    activeTimerCount (scheduleMessage (scheduleMessage armedDaily dailyMsg 0) dailyMsg 0)
      dailyMsg.id = 1 :=
  ⟨by decide, by decide, arm_twice_single_timer armedDaily dailyMsg 0 (by decide) (by decide)⟩

/-! Tenant isolation of `resetGuildConfig`. -/

theorem startsWithKey_append {s pre : JsString} (h : startsWithKey s pre = true) :
    ∃ t, s = pre ++ t := by
  induction pre generalizing s with
  | nil => exact ⟨s, rfl⟩
  | cons d pre ih =>
      cases s with
      | nil => cases h
      | cons c s =>
          simp only [startsWithKey, Bool.and_eq_true, beq_iff_eq] at h
          obtain ⟨rfl, h2⟩ := h
          obtain ⟨t, rfl⟩ := ih h2
          exact ⟨t, rfl⟩

theorem startsWithKey_dash_key {T U uid : JsString} (hT : '-' ∉ T) (hU : '-' ∉ U)
    (h : startsWithKey (U ++ '-' :: uid) (T ++ ['-']) = true) : T = U := by
  induction T generalizing U with
  | nil =>
      cases U with
      | nil => rfl
      | cons c U =>
          exfalso
          simp only [List.nil_append, List.cons_append, startsWithKey, Bool.and_eq_true,
            beq_iff_eq, and_true] at h
          subst h
          exact hU (List.mem_cons_self _ _)
  | cons a T ih =>
      cases U with
      | nil =>
          exfalso
          simp only [List.cons_append, List.nil_append, startsWithKey, Bool.and_eq_true,
            beq_iff_eq] at h
          have h1 := h.1
          subst h1
          exact hT (List.mem_cons_self _ _)
      | cons c U =>
          simp only [List.cons_append, startsWithKey, Bool.and_eq_true, beq_iff_eq] at h
          obtain ⟨h1, h2⟩ := h
          subst h1
          have hT2 : '-' ∉ T := fun hx => hT (List.mem_cons_of_mem _ hx)
          have hU2 : '-' ∉ U := fun hx => hU (List.mem_cons_of_mem _ hx)
          rw [ih hT2 hU2 h2]

theorem belongsToGuild_ne {config : List RoleCfg} {T U : JsString} (hne : T ≠ U)
    (hq : belongsToGuild config U = true) : belongsToGuild config T = false := by
  cases config with
  | nil => rfl
  | cons c rest =>
      simp only [belongsToGuild, decide_eq_true_eq] at hq
      simp only [belongsToGuild, decide_eq_false_iff_not]
      intro hx
      exact hne (by rw [← hx, hq])

/-- C10: resetting tenant `T` leaves every piece of a distinct tenant `U`'s
    state unchanged (for identifiers containing no `-`): `U`'s lookups in
    the six guild-keyed maps, its reaction-role and button-role configs, and
    its user-level records are identical before and after
    `resetGuildConfig T`. -/
theorem resetGuildConfig_frame {α : Type} (st : Storage α) (T U : JsString)
    (hne : T ≠ U) (hT : '-' ∉ T) (hU : '-' ∉ U) :
    mapGet U (resetGuildConfig st T).welcomeConfigs = mapGet U st.welcomeConfigs ∧
    mapGet U (resetGuildConfig st T).leaveConfigs = mapGet U st.leaveConfigs ∧
    mapGet U (resetGuildConfig st T).levelingConfigs = mapGet U st.levelingConfigs ∧
    mapGet U (resetGuildConfig st T).scheduledMessages = mapGet U st.scheduledMessages ∧
    mapGet U (resetGuildConfig st T).ticketConfigs = mapGet U st.ticketConfigs ∧
    mapGet U (resetGuildConfig st T).tickets = mapGet U st.tickets ∧
    (resetGuildConfig st T).reactionRoles.filter (fun p => belongsToGuild p.2 U)
      = st.reactionRoles.filter (fun p => belongsToGuild p.2 U) ∧
    (resetGuildConfig st T).buttonRoles.filter (fun p => belongsToGuild p.2 U)
      = st.buttonRoles.filter (fun p => belongsToGuild p.2 U) ∧
    (resetGuildConfig st T).userLevels.filter (fun p => startsWithKey p.1 (U ++ ['-']))
      = st.userLevels.filter (fun p => startsWithKey p.1 (U ++ ['-'])) := by
  have hUT : U ≠ T := Ne.symm hne
  unfold resetGuildConfig
  dsimp only
  refine ⟨mapGet_mapDelete_ne hUT _, mapGet_mapDelete_ne hUT _, mapGet_mapDelete_ne hUT _,
    mapGet_mapDelete_ne hUT _, mapGet_mapDelete_ne hUT _, mapGet_mapDelete_ne hUT _,
    ?_, ?_, ?_⟩
  · exact filter_filter_not _ (fun p hp hq => belongsToGuild_ne hne hq)
  · exact filter_filter_not _ (fun p hp hq => belongsToGuild_ne hne hq)
  · apply filter_filter_not
    intro p hp hq
    obtain ⟨t, hpt⟩ := startsWithKey_append hq
    cases hst : startsWithKey p.1 (T ++ ['-'])
    · rfl
    · exfalso
      rw [hpt] at hst
      exact hne (startsWithKey_dash_key hT hU (by simpa [List.append_assoc] using hst))

/-- Witness for C10: tenants `1` and `2` in the two-tenant fixture. -/
theorem resetGuildConfig_frame_witness :
    ((['1'] : JsString) ≠ ['2'] ∧ '-' ∉ (['1'] : JsString) ∧ '-' ∉ (['2'] : JsString)) ∧
    (mapGet ['2'] (resetGuildConfig twoTenantStorage ['1']).welcomeConfigs
        = mapGet ['2'] twoTenantStorage.welcomeConfigs ∧
      mapGet ['2'] (resetGuildConfig twoTenantStorage ['1']).leaveConfigs
        = mapGet ['2'] twoTenantStorage.leaveConfigs ∧
      mapGet ['2'] (resetGuildConfig twoTenantStorage ['1']).levelingConfigs
        = mapGet ['2'] twoTenantStorage.levelingConfigs ∧
      mapGet ['2'] (resetGuildConfig twoTenantStorage ['1']).scheduledMessages
        = mapGet ['2'] twoTenantStorage.scheduledMessages ∧
      mapGet ['2'] (resetGuildConfig twoTenantStorage ['1']).ticketConfigs
        = mapGet ['2'] twoTenantStorage.ticketConfigs ∧
      mapGet ['2'] (resetGuildConfig twoTenantStorage ['1']).tickets
        = mapGet ['2'] twoTenantStorage.tickets ∧
      (resetGuildConfig twoTenantStorage ['1']).reactionRoles.filter
          (fun p => belongsToGuild p.2 ['2'])
        = twoTenantStorage.reactionRoles.filter (fun p => belongsToGuild p.2 ['2']) ∧
      (resetGuildConfig twoTenantStorage ['1']).buttonRoles.filter
          (fun p => belongsToGuild p.2 ['2'])
        = twoTenantStorage.buttonRoles.filter (fun p => belongsToGuild p.2 ['2']) ∧
      (resetGuildConfig twoTenantStorage ['1']).userLevels.filter
          (fun p => startsWithKey p.1 (['2'] ++ ['-']))
        = twoTenantStorage.userLevels.filter (fun p => startsWithKey p.1 (['2'] ++ ['-']))) :=
  ⟨by decide, resetGuildConfig_frame twoTenantStorage ['1'] ['2'] (by decide) (by decide)
    (by decide)⟩

end RoleGuardian
